import Mathlib

/-!
Shallow embedding of the tower-defense simulation in
"src/Python/Creational Patterns/Prototype Pattern/tower.py".

Conventions of the embedding:
* Python integers are `ℤ` (arbitrary precision), list indices are `ℕ`.
* Screen / path coordinates are `ℚ`.  The source compares Euclidean
  distances computed with `math.sqrt` against integer thresholds; since
  for `0 ≤ r` we have `Real.sqrt d2 ≤ r ↔ d2 ≤ r ^ 2` (and likewise for
  strict comparison), every such comparison is embedded as the exact
  squared comparison, which stays inside `ℚ`.  All radii and speeds in
  the program are positive, so the translation is exact.
* Rendering, colours, fonts, the pygame event queue and the mouse are
  not part of the simulation state; fields used only for drawing
  (`color`, `name`, `target`, `grid_visible`, the drag preview) are
  dropped.  Commands (`place_tower`, `upgrade_selected_tower`,
  `sell_selected_tower`, `start_wave`) take the selected prototype or
  the selected tower's index as an explicit argument instead of the
  mouse-driven selection fields.
* Python `//` (floor division) is `Int.fdiv`; Python `int(...)` applied
  to a product with a float literal truncates toward zero and is
  embedded as `Int.tdiv` of the exact scaled integer product (all the
  operands the program produces are small enough that the float product
  truncates to the same integer).
-/

namespace TowerDefense

/-- Screen width constant (`SCREEN_WIDTH = 800`). -/
def SCREEN_WIDTH : ℤ := 800

/-- Screen height constant (`SCREEN_HEIGHT = 600`). -/
def SCREEN_HEIGHT : ℤ := 600

/-- Grid cell size constant (`GRID_SIZE = 40`). -/
def GRID_SIZE : ℤ := 40

/-- Game states (`GAME_STATE_PLAYING = 0`, `GAME_STATE_GAME_OVER = 1`,
`GAME_STATE_VICTORY = 2`). -/
inductive GState where
  | playing
  | gameOver
  | victory
deriving DecidableEq

/-- The three concrete tower classes (`BasicTower`, `SniperTower`,
`BomberTower`); the only behavioural difference is that `BomberTower`
overrides `attack`, modelled by dispatching on this tag. -/
inductive TowerKind where
  | basic
  | sniper
  | bomber
deriving DecidableEq

/-- `Tower.__init__` state (drawing-only fields `color`, `name`,
`target` omitted). -/
structure Tower where
  x : ℚ
  y : ℚ
  radius : ℤ
  damage : ℤ
  cooldown : ℤ
  cooldown_counter : ℤ
  cost : ℤ
  level : ℤ
  kind : TowerKind
deriving DecidableEq

instance : Inhabited Tower := ⟨⟨0, 0, 0, 0, 0, 0, 0, 0, TowerKind.basic⟩⟩

/-- `BasicTower(x, y)`: radius 100, damage 10, cooldown 30, cost 50. -/
def BasicTower (x y : ℚ) : Tower :=
  ⟨x, y, 100, 10, 30, 0, 50, 1, TowerKind.basic⟩

/-- `SniperTower(x, y)`: radius 200, damage 30, cooldown 60, cost 100. -/
def SniperTower (x y : ℚ) : Tower :=
  ⟨x, y, 200, 30, 60, 0, 100, 1, TowerKind.sniper⟩

/-- `BomberTower(x, y)`: radius 80, damage 15, cooldown 45, cost 75. -/
def BomberTower (x y : ℚ) : Tower :=
  ⟨x, y, 80, 15, 45, 0, 75, 1, TowerKind.bomber⟩

/-- `Tower.upgrade`: level += 1; `damage = int(damage * 1.5)`;
`radius += 20`; `cooldown = max(10, int(cooldown * 0.8))`; returns
`cost // 2` (cost itself is never mutated).  `int(d * 1.5)` truncates
`3 d / 2` toward zero and `int(c * 0.8)` truncates `4 c / 5` toward
zero, hence `Int.tdiv`; `cost // 2` is Python floor division, hence
`Int.fdiv`. -/
def Tower.upgrade (t : Tower) : ℤ × Tower :=
  (Int.fdiv t.cost 2,
   { t with
      level := t.level + 1
      damage := Int.tdiv (t.damage * 3) 2
      radius := t.radius + 20
      cooldown := max 10 (Int.tdiv (t.cooldown * 4) 5) })

/-- `Tower.can_attack`: true iff `cooldown_counter <= 0`. -/
def Tower.can_attack (t : Tower) : Bool :=
  decide (t.cooldown_counter ≤ 0)

/-- Squared Euclidean distance; the source computes
`math.sqrt((x1-x2)**2 + (y1-y2)**2)` and only ever compares it with a
nonnegative bound, so the squared form is the exact translation. -/
def dist2 (x1 y1 x2 y2 : ℚ) : ℚ :=
  (x1 - x2) ^ 2 + (y1 - y2) ^ 2

/-- `Enemy.__init__` state (drawing-only `color` omitted). -/
structure Enemy where
  path : List (ℚ × ℚ)
  path_index : ℕ
  x : ℚ
  y : ℚ
  speed : ℚ
  max_health : ℤ
  health : ℤ
  value : ℤ
deriving DecidableEq

instance : Inhabited Enemy := ⟨⟨[], 0, 0, 0, 0, 0, 0, 0⟩⟩

/-- `Enemy.is_alive`: `health > 0`. -/
def Enemy.is_alive (e : Enemy) : Bool :=
  decide (0 < e.health)

/-- `Enemy.update`: if `path_index >= len(path) - 1` return `True`
(reached the end) without moving; otherwise step toward waypoint
`path[path_index + 1]` and return `False`.  If the remaining distance
is `< speed` the enemy snaps onto the waypoint and the index advances;
otherwise it moves by `speed` along the segment direction.  The source
divides the displacement by `math.sqrt(dx**2 + dy**2)`; the game's path
is axis-aligned and enemies only ever stand on it, so `dx = 0` or
`dy = 0` holds for every displacement the program produces, where the
Euclidean length equals `|dx| + |dy|`, which keeps the definition in
`ℚ`.  The branch test `distance < speed` is embedded as the exact
squared comparison. -/
def Enemy.update (e : Enemy) : Bool × Enemy :=
  if e.path.length ≤ e.path_index + 1 then (true, e)
  else if ((e.path.getD (e.path_index + 1) (0, 0)).1 - e.x) ^ 2 +
      ((e.path.getD (e.path_index + 1) (0, 0)).2 - e.y) ^ 2 <
      e.speed ^ 2 then
    (false, { e with
                x := (e.path.getD (e.path_index + 1) (0, 0)).1
                y := (e.path.getD (e.path_index + 1) (0, 0)).2
                path_index := e.path_index + 1 })
  else
    (false, { e with
                x := e.x +
                  ((e.path.getD (e.path_index + 1) (0, 0)).1 - e.x) *
                    e.speed /
                    (|(e.path.getD (e.path_index + 1) (0, 0)).1 - e.x| +
                     |(e.path.getD (e.path_index + 1) (0, 0)).2 - e.y|)
                y := e.y +
                  ((e.path.getD (e.path_index + 1) (0, 0)).2 - e.y) *
                    e.speed /
                    (|(e.path.getD (e.path_index + 1) (0, 0)).1 - e.x| +
                     |(e.path.getD (e.path_index + 1) (0, 0)).2 - e.y|) })

/-- `EnemyFactory.create_enemy`: "basic" (speed 2.0, health 50, value
10), "fast" (speed 3.5, health 30, value 15), "tank" (speed 1.0,
health 150, value 25); an unknown type raises `ValueError`, embedded as
`none`.  The `Enemy` constructor reads `path[0]`; the program only
passes the fixed non-empty game path, so `getD 0` is exact there. -/
def EnemyFactory.create_enemy (enemy_type : String) (path : List (ℚ × ℚ)) :
    Option Enemy :=
  let start := path.getD 0 (0, 0)
  if enemy_type = "basic" then
    some ⟨path, 0, start.1, start.2, 2, 50, 50, 10⟩
  else if enemy_type = "fast" then
    some ⟨path, 0, start.1, start.2, 7 / 2, 30, 30, 15⟩
  else if enemy_type = "tank" then
    some ⟨path, 0, start.1, start.2, 1, 150, 150, 25⟩
  else none

/-- `Tower.find_target`: index of the closest enemy with distance
`<= radius`; the running minimum starts at infinity and is only
replaced by a strictly smaller distance, so the first of several
equidistant closest enemies wins.  The source returns the enemy object;
the embedding returns its position in the list. -/
def Tower.find_target (t : Tower) (enemies : List Enemy) : Option ℕ :=
  (enemies.enum.foldl
    (fun best p =>
      let d2 := dist2 t.x t.y p.2.x p.2.y
      match best with
      | none =>
          if d2 ≤ ((t.radius : ℚ)) ^ 2 then some (p.1, d2) else none
      | some q =>
          if d2 ≤ ((t.radius : ℚ)) ^ 2 ∧ d2 < q.2 then some (p.1, d2)
          else some q)
    none).map Prod.fst

/-- `Tower.attack` (single-target base-class version): when on
cooldown, decrement the counter and deal 0; otherwise damage the found
target (if any), reset the cooldown counter, and return the damage
dealt.  In-place mutation of the target's health becomes `List.set` at
the found index. -/
def Tower.attack (t : Tower) (enemies : List Enemy) :
    ℤ × Tower × List Enemy :=
  if t.can_attack = false then
    (0, { t with cooldown_counter := t.cooldown_counter - 1 }, enemies)
  else
    match t.find_target enemies with
    | some i =>
        let e := enemies.getD i default
        (t.damage, { t with cooldown_counter := t.cooldown },
         enemies.set i { e with health := e.health - t.damage })
    | none => (0, t, enemies)

/-- `BomberTower.attack`: when off cooldown, subtract `damage` from
every enemy whose distance to the tower is `<= radius`; if at least one
enemy is in range, reset the cooldown counter and return
`damage * (number of enemies hit)`, else return 0. -/
def BomberTower.attack (t : Tower) (enemies : List Enemy) :
    ℤ × Tower × List Enemy :=
  if t.can_attack = false then
    (0, { t with cooldown_counter := t.cooldown_counter - 1 }, enemies)
  else
    let inRange := fun e : Enemy =>
      decide (dist2 t.x t.y e.x e.y ≤ ((t.radius : ℚ)) ^ 2)
    let n := (enemies.filter inRange).length
    if 0 < n then
      ((t.damage * n : ℤ), { t with cooldown_counter := t.cooldown },
       enemies.map fun e =>
         if inRange e then { e with health := e.health - t.damage } else e)
    else (0, t, enemies)

/-- Dynamic dispatch of `attack` on the tower's concrete class:
`BomberTower` overrides it, the other two classes inherit the base
version. -/
def Tower.attackDispatch (t : Tower) (enemies : List Enemy) :
    ℤ × Tower × List Enemy :=
  match t.kind with
  | TowerKind.bomber => BomberTower.attack t enemies
  | _ => Tower.attack t enemies

/-- `WaveManager.__init__` state. -/
structure WaveManager where
  current_wave : ℕ
  waves : List (List String)
  spawn_timer : ℕ
  enemy_index : ℕ
  active : Bool
  spawn_delay : ℕ
deriving DecidableEq

/-- A fresh `WaveManager()`: no waves, inactive, spawn delay 60. -/
def WaveManager.init : WaveManager :=
  ⟨0, [], 0, 0, false, 60⟩

/-- `WaveManager.add_wave`: append a wave of enemy-type tags. -/
def WaveManager.add_wave (wm : WaveManager) (enemies : List String) :
    WaveManager :=
  { wm with waves := wm.waves ++ [enemies] }

/-- `WaveManager.start_wave`: if waves remain, activate and reset the
cursor and timer, returning `True`; otherwise return `False`. -/
def WaveManager.start_wave (wm : WaveManager) : Bool × WaveManager :=
  if wm.current_wave < wm.waves.length then
    (true, { wm with active := true, enemy_index := 0, spawn_timer := 0 })
  else (false, wm)

/-- `WaveManager.update`: when inactive do nothing; otherwise advance
the spawn timer, and once it reaches `spawn_delay` reset it and either
spawn the next enemy of the current wave (advancing the cursor) or, if
the wave's entries are exhausted, deactivate and advance the wave
index.  `waves[current_wave]` is embedded via `getD` (the source only
calls `update` while a started wave is active, where the index is in
range). -/
def WaveManager.update (wm : WaveManager) (path : List (ℚ × ℚ)) :
    Option Enemy × WaveManager :=
  if wm.active = false then (none, wm)
  else if wm.spawn_delay ≤ wm.spawn_timer + 1 then
    if wm.enemy_index < (wm.waves.getD wm.current_wave []).length then
      (EnemyFactory.create_enemy
        ((wm.waves.getD wm.current_wave []).getD wm.enemy_index "") path,
       { wm with spawn_timer := 0, enemy_index := wm.enemy_index + 1 })
    else
      (none, { wm with
                 spawn_timer := 0
                 active := false
                 current_wave := wm.current_wave + 1 })
  else (none, { wm with spawn_timer := wm.spawn_timer + 1 })

/-- `WaveManager.is_finished`: all waves completed and none active. -/
def WaveManager.is_finished (wm : WaveManager) : Bool :=
  decide (wm.waves.length ≤ wm.current_wave) && !wm.active

/-- The simulation state of `TowerDefenseGame` (screen, clock and the
UI selection fields are rendering/input concerns and are omitted; the
commands below receive the selected prototype or tower index
explicitly). -/
structure GameState where
  money : ℤ
  lives : ℤ
  score : ℤ
  game_state : GState
  path : List (ℚ × ℚ)
  wave_manager : WaveManager
  towers : List Tower
  enemies : List Enemy
deriving DecidableEq

/-- The fixed enemy path built in `TowerDefenseGame.__init__`. -/
def gamePath : List (ℚ × ℚ) :=
  [(0, 300), (200, 300), (200, 150), (400, 150),
   (400, 450), (600, 450), (600, 300), (800, 300)]

/-- `TowerDefenseGame.setup_waves`: the five fixed waves. -/
def setup_waves (wm : WaveManager) : WaveManager :=
  let w1 := List.replicate 10 "basic"
  let w2 := List.replicate 8 "basic" ++ List.replicate 7 "fast"
  let w3 := List.replicate 10 "basic" ++ List.replicate 7 "fast" ++
    List.replicate 3 "tank"
  let w4 := List.replicate 10 "basic" ++ List.replicate 10 "fast" ++
    List.replicate 5 "tank"
  let w5 := List.replicate 10 "basic" ++ List.replicate 12 "fast" ++
    List.replicate 8 "tank"
  ((((wm.add_wave w1).add_wave w2).add_wave w3).add_wave w4).add_wave w5

/-- `TowerDefenseGame.__init__`: money 200, lives 20, score 0, state
Playing, the fixed path, the five waves, no towers, no enemies. -/
def initialGame : GameState :=
  { money := 200
    lives := 20
    score := 0
    game_state := GState.playing
    path := gamePath
    wave_manager := setup_waves WaveManager.init
    towers := []
    enemies := [] }

/-- `TowerDefenseGame.get_grid_position`: quantize each axis with
Python floor division to the cell of size 40 and centre on it. -/
def get_grid_position (pos : ℤ × ℤ) : ℤ × ℤ :=
  (Int.fdiv pos.1 GRID_SIZE * GRID_SIZE + Int.fdiv GRID_SIZE 2,
   Int.fdiv pos.2 GRID_SIZE * GRID_SIZE + Int.fdiv GRID_SIZE 2)

/-- `TowerDefenseGame.is_position_valid`: on-screen, at distance
`>= 30` from every path waypoint and `>= 40` from every placed tower
(the source rejects on `sqrt < 30` resp. `sqrt < 40`; squared form is
exact). -/
def is_position_valid (g : GameState) (pos : ℤ × ℤ) : Bool :=
  if pos.1 < 0 ∨ SCREEN_WIDTH ≤ pos.1 ∨ pos.2 < 0 ∨ SCREEN_HEIGHT ≤ pos.2
  then false
  else if g.path.any fun q =>
      decide (dist2 (pos.1 : ℚ) (pos.2 : ℚ) q.1 q.2 < 30 ^ 2) then false
  else if g.towers.any fun t =>
      decide (dist2 (pos.1 : ℚ) (pos.2 : ℚ) t.x t.y < 40 ^ 2) then false
  else true

/-- `TowerDefenseGame.place_tower` with the selected prototype passed
explicitly (the source reads it from the UI selection; with nothing
selected it returns `False` before doing anything, which the caller
models by not issuing the command).  Snap the position, validate it,
check affordability, then clone the prototype at the snapped position
and debit its cost. -/
def place_tower (g : GameState) (proto : Tower) (pos : ℤ × ℤ) :
    Bool × GameState :=
  let gp := get_grid_position pos
  if is_position_valid g gp = false then (false, g)
  else if g.money < proto.cost then (false, g)
  else
    let newTower := { proto with x := (gp.1 : ℚ), y := (gp.2 : ℚ) }
    (true, { g with
               towers := g.towers ++ [newTower]
               money := g.money - newTower.cost })

/-- `TowerDefenseGame.upgrade_selected_tower` with the selected tower
given by its index (no selection, i.e. an out-of-range index, returns
`False`).  The upgrade cost `cost // 2` is deducted only if affordable,
then `Tower.upgrade` is applied (its return value is discarded by the
source). -/
def upgrade_selected_tower (g : GameState) (i : ℕ) : Bool × GameState :=
  if h : i < g.towers.length then
    if Int.fdiv (g.towers.get ⟨i, h⟩).cost 2 ≤ g.money then
      (true, { g with
                 money := g.money -
                   Int.fdiv (g.towers.get ⟨i, h⟩).cost 2
                 towers := g.towers.set i
                   ((g.towers.get ⟨i, h⟩).upgrade).2 })
    else (false, g)
  else (false, g)

/-- `TowerDefenseGame.sell_selected_tower` with the selected tower
given by its index: credit `int(cost * 0.7)` and remove the tower. -/
def sell_selected_tower (g : GameState) (i : ℕ) : Bool × GameState :=
  if h : i < g.towers.length then
    (true, { g with
               money := g.money +
                 Int.tdiv ((g.towers.get ⟨i, h⟩).cost * 7) 10
               towers := g.towers.eraseIdx i })
  else (false, g)

/-- `TowerDefenseGame.start_wave`: delegate to the wave manager unless
a wave is already active. -/
def start_wave (g : GameState) : Bool × GameState :=
  if g.wave_manager.active then (false, g)
  else
    let r := g.wave_manager.start_wave
    (r.1, { g with wave_manager := r.2 })

/-- How one iteration of the enemy loop in `TowerDefenseGame.update`
disposes of an enemy: it reached the end of the path (life lost), it
was found dead (bounty paid), or it stays. -/
inductive Fate where
  | reachedEnd
  | killed
  | kept
deriving DecidableEq

/-- One iteration of the enemy loop in `TowerDefenseGame.update`:
`reached_end = enemy.update()`; `if reached_end` the enemy costs a
life, `elif not enemy.is_alive()` it pays its bounty, else it stays.
The `if` branch is tested first, so reaching the end takes precedence
over being dead. -/
def classifyEnemy (e : Enemy) : Fate × Enemy :=
  let r := e.update
  if r.1 then (Fate.reachedEnd, r.2)
  else if r.2.is_alive = false then (Fate.killed, r.2)
  else (Fate.kept, r.2)

/-- Spawn block of `TowerDefenseGame.update`: ask the wave manager for
a new enemy and append it to the enemy list. -/
def spawnPhase (g : GameState) : GameState :=
  let r := g.wave_manager.update g.path
  { g with wave_manager := r.2, enemies := g.enemies ++ r.1.toList }

/-- Movement/cleanup block of `TowerDefenseGame.update`: every enemy is
advanced and classified; each enemy that reached the end decrements
`lives`, each dead enemy credits its `value` to `money` and `score`,
and both kinds are removed from the list (removal is by object
identity in the source, equivalent to keeping exactly the `kept`
ones in order). -/
def movePhase (g : GameState) : GameState :=
  let cs := g.enemies.map classifyEnemy
  let bounty :=
    ((cs.filter fun c => decide (c.1 = Fate.killed)).map
      fun c => c.2.value).sum
  { g with
      lives := g.lives -
        ((cs.filter fun c => decide (c.1 = Fate.reachedEnd)).length : ℤ)
      money := g.money + bounty
      score := g.score + bounty
      enemies := (cs.filter fun c => decide (c.1 = Fate.kept)).map
        fun c => c.2 }

/-- Tower block of `TowerDefenseGame.update`: every tower attacks the
current enemy list in order, each attack seeing the list as left by the
previous one. -/
def combatPhase (g : GameState) : GameState :=
  let r := g.towers.foldl
    (fun acc t =>
      let a := Tower.attackDispatch t acc.2
      (acc.1 ++ [a.2.1], a.2.2))
    (([] : List Tower), g.enemies)
  { g with towers := r.1, enemies := r.2 }

/-- Final block of `TowerDefenseGame.update`: set GameOver when
`lives <= 0`, then set Victory when the waves are finished and the
enemy list is empty (the Victory test runs second and overwrites). -/
def statePhase (g : GameState) : GameState :=
  let s1 := if g.lives ≤ 0 then GState.gameOver else g.game_state
  let s2 :=
    if g.wave_manager.is_finished = true ∧ g.enemies = [] then
      GState.victory
    else s1
  { g with game_state := s2 }

/-- `TowerDefenseGame.update`: the four blocks in source order —
spawn, enemy movement/cleanup, tower attacks, end-state checks. -/
def tick (g : GameState) : GameState :=
  statePhase (combatPhase (movePhase (spawnPhase g)))

/-- One pass of the main loop's simulation part
(`TowerDefenseGame.run`): `update` runs only while the game state is
Playing. -/
def runStep (g : GameState) : GameState :=
  if g.game_state = GState.playing then tick g else g

/-- The simulation states reachable from `initialGame` by ticks of the
main loop and by the four gameplay commands the event handler can
issue, with the prototype of a placement drawn from the game's
prototype dictionary. -/
inductive Reachable : GameState → Prop where
  | init : Reachable initialGame
  | step {g} : Reachable g → Reachable (runStep g)
  | place {g proto pos} : Reachable g →
      proto ∈ [BasicTower 0 0, SniperTower 0 0, BomberTower 0 0] →
      Reachable (place_tower g proto pos).2
  | upgrade {g i} : Reachable g → Reachable (upgrade_selected_tower g i).2
  | sell {g i} : Reachable g → Reachable (sell_selected_tower g i).2
  | wave {g} : Reachable g → Reachable (start_wave g).2

/-! ### Helper lemmas -/

theorem Enemy.update_value (e : Enemy) : (e.update).2.value = e.value := by
  rw [Enemy.update]
  split
  · rfl
  · split <;> rfl

theorem Enemy.update_health (e : Enemy) : (e.update).2.health = e.health := by
  rw [Enemy.update]
  split
  · rfl
  · split <;> rfl

theorem Enemy.update_path (e : Enemy) : (e.update).2.path = e.path := by
  rw [Enemy.update]
  split
  · rfl
  · split <;> rfl

theorem classifyEnemy_value (e : Enemy) :
    (classifyEnemy e).2.value = e.value := by
  rw [classifyEnemy]
  split
  · exact e.update_value
  · split <;> exact e.update_value

/-! ### Concrete states used by the counterexamples -/

/-- A short straight two-waypoint path. -/
def pathTwo : List (ℚ × ℚ) := [(0, 0), (10, 0)]

/-- A straight three-waypoint path. -/
def pathThree : List (ℚ × ℚ) := [(0, 0), (100, 0), (200, 0)]

/-- A wave manager holding one not-yet-started wave (not finished). -/
def wmIdle : WaveManager :=
  ⟨0, [List.replicate 1 "basic"], 0, 0, false, 60⟩

/-- A wave manager whose waves are all done (`is_finished` holds). -/
def wmDone : WaveManager := ⟨0, [], 0, 0, false, 60⟩

/-- An enemy that was killed earlier (health 0) and is standing at
the final waypoint of `pathTwo`. -/
def deadAtEnd : Enemy := ⟨pathTwo, 1, 10, 0, 1, 50, 0, 10⟩

/-- C1 counterexample state: one dead enemy at the end of the path. -/
def c1State : GameState :=
  { money := 100, lives := 3, score := 0, game_state := GState.playing,
    path := pathTwo, wave_manager := wmIdle, towers := [],
    enemies := [deadAtEnd] }

/-! ### C7: the upgrade formula -/

/-- C7: `upgrade()` increments the level, sets damage to
`floor(damage * 1.5)`, adds 20 to the range, sets the cooldown to
`max(10, floor(cooldown * 0.8))`, never touches the stored cost, and
returns `floor(cost / 2)`; concretely a damage-10/range-100/cooldown-30
tower upgrades to 15/120/24 and then to 22/140/19. -/
theorem c7_upgrade_formula (t : Tower)
    (hd : 0 ≤ t.damage) (hc : 0 ≤ t.cooldown) :
    ((t.upgrade).2.level = t.level + 1 ∧
     (t.upgrade).2.damage = (t.damage * 3).fdiv 2 ∧
     (t.upgrade).2.radius = t.radius + 20 ∧
     (t.upgrade).2.cooldown = max 10 ((t.cooldown * 4).fdiv 5) ∧
     (t.upgrade).2.cost = t.cost ∧
     (t.upgrade).1 = t.cost.fdiv 2) ∧
    (((BasicTower 0 0).upgrade).2.damage = 15 ∧
     ((BasicTower 0 0).upgrade).2.radius = 120 ∧
     ((BasicTower 0 0).upgrade).2.cooldown = 24 ∧
     (((BasicTower 0 0).upgrade).2.upgrade).2.damage = 22 ∧
     (((BasicTower 0 0).upgrade).2.upgrade).2.radius = 140 ∧
     (((BasicTower 0 0).upgrade).2.upgrade).2.cooldown = 19) := by
  refine ⟨⟨rfl, ?_, rfl, ?_, rfl, rfl⟩, by decide⟩
  · unfold Tower.upgrade
    dsimp only
    rw [Int.fdiv_eq_tdiv (by positivity) (by norm_num)]
  · unfold Tower.upgrade
    dsimp only
    rw [Int.fdiv_eq_tdiv (by positivity) (by norm_num)]

/-- Witness for C7 at the basic tower prototype. -/
theorem c7_upgrade_formula_witness :
    ((BasicTower 0 0).upgrade).2.level = (BasicTower 0 0).level + 1 :=
  (c7_upgrade_formula (BasicTower 0 0) (by decide) (by decide)).1.1

/-! ### C2: removal precedes combat, so an attack kill pays next
tick -/

theorem Tower.attack_length (t : Tower) (es : List Enemy) :
    (Tower.attack t es).2.2.length = es.length := by
  rw [Tower.attack]
  split
  · rfl
  · rcases hft : t.find_target es with _ | i
    · rfl
    · simp [List.length_set]

theorem BomberTower.attack_preserves_length (t : Tower) (es : List Enemy) :
    (BomberTower.attack t es).2.2.length = es.length := by
  rw [BomberTower.attack]
  split
  · rfl
  · dsimp only
    split
    · simp
    · rfl

theorem Tower.attackDispatch_length (t : Tower) (es : List Enemy) :
    (Tower.attackDispatch t es).2.2.length = es.length := by
  rw [Tower.attackDispatch]
  rcases t.kind with _ | _ | _
  · exact Tower.attack_length t es
  · exact Tower.attack_length t es
  · exact BomberTower.attack_preserves_length t es

theorem combat_foldl_length (ts : List Tower)
    (acc : List Tower × List Enemy) :
    ((ts.foldl
      (fun acc t =>
        ((acc.1 ++ [(Tower.attackDispatch t acc.2).2.1],
          (Tower.attackDispatch t acc.2).2.2)))
      acc).2).length = acc.2.length := by
  induction ts generalizing acc with
  | nil => rfl
  | cons t tl ih =>
      rw [List.foldl_cons]
      rw [ih]
      exact Tower.attackDispatch_length t acc.2

/-- An enemy one step short of the middle waypoint of `pathThree`,
about to snap onto it. -/
def aboutToSnap : Enemy := ⟨pathThree, 0, 99, 0, 2, 10, 10, 10⟩

/-- A basic tower in range of the middle waypoint of `pathThree`. -/
def coveringTower : Tower := ⟨100, 40, 100, 10, 30, 0, 50, 1,
  TowerKind.basic⟩

/-- C2 counterexample state: one live enemy about to snap into the
tower's range, all waves already finished. -/
def c2State : GameState :=
  { money := 100, lives := 20, score := 0, game_state := GState.playing,
    path := pathThree, wave_manager := wmDone,
    towers := [coveringTower], enemies := [aboutToSnap] }

/-- C2 counterexample: during the first tick the tower's attack kills
the only enemy (its health drops to 0 and it stays in the list), yet
`money` and `score` are unchanged that tick — the bounty arrives only
with the next tick's removal pass.  This refutes the claim that combat
precedes dead-enemy removal with the bounty credited in the same tick
as the killing attack. -/
theorem c2_counterexample :
    (runStep c2State).money = c2State.money ∧
    (runStep c2State).score = c2State.score ∧
    (∀ e ∈ (runStep c2State).enemies, e.health ≤ 0) ∧
    (runStep c2State).enemies ≠ [] ∧
    (runStep (runStep c2State)).money = c2State.money + 10 ∧
    (runStep (runStep c2State)).score = c2State.score + 10 := by
  have h1 : runStep c2State =
      { money := 100, lives := 20, score := 0,
        game_state := GState.playing, path := pathThree,
        wave_manager := wmDone,
        towers := [⟨100, 40, 100, 10, 30, 30, 50, 1, TowerKind.basic⟩],
        enemies := [⟨pathThree, 1, 100, 0, 2, 10, 0, 10⟩] } := by
    norm_num [runStep, tick, statePhase, combatPhase, movePhase,
      spawnPhase, classifyEnemy, Enemy.update, Enemy.is_alive,
      Tower.attackDispatch, Tower.attack, Tower.can_attack,
      Tower.find_target, dist2, WaveManager.update,
      WaveManager.is_finished, c2State, wmDone, pathThree,
      aboutToSnap, coveringTower]
    decide
  have h2 : runStep (runStep c2State) =
      { money := 110, lives := 20, score := 10,
        game_state := GState.victory, path := pathThree,
        wave_manager := wmDone,
        towers := [⟨100, 40, 100, 10, 30, 29, 50, 1, TowerKind.basic⟩],
        enemies := [] } := by
    rw [h1]
    norm_num [runStep, tick, statePhase, combatPhase, movePhase,
      spawnPhase, classifyEnemy, Enemy.update, Enemy.is_alive,
      Tower.attackDispatch, Tower.attack, Tower.can_attack,
      Tower.find_target, dist2, WaveManager.update,
      WaveManager.is_finished, wmDone, pathThree]
    decide
  refine ⟨by rw [h1]; rfl, by rw [h1]; rfl, by rw [h1]; decide,
    by rw [h1]; decide, by rw [h2]; rfl, by rw [h2]; rfl⟩

/-- C2 amended: the tick runs spawn, then enemy movement/cleanup
(which both removes exited enemies and pays the bounty of enemies
already dead), then tower combat, then the end-state checks.  Combat
changes no money, score or enemy count, so the tick's whole money and
score delta is the summed bounty of the enemies that were dead when
the movement/cleanup pass ran — an enemy killed by an attack this tick
is paid out only by a later tick's cleanup. -/
theorem c2_tick_order (g : GameState) :
    tick g = statePhase (combatPhase (movePhase (spawnPhase g))) ∧
    (combatPhase (movePhase (spawnPhase g))).money =
      (movePhase (spawnPhase g)).money ∧
    (combatPhase (movePhase (spawnPhase g))).score =
      (movePhase (spawnPhase g)).score ∧
    (combatPhase (movePhase (spawnPhase g))).enemies.length =
      (movePhase (spawnPhase g)).enemies.length ∧
    (tick g).money = g.money +
      ((((spawnPhase g).enemies.map classifyEnemy).filter fun c =>
        decide (c.1 = Fate.killed)).map fun c => c.2.value).sum ∧
    (tick g).score = g.score +
      ((((spawnPhase g).enemies.map classifyEnemy).filter fun c =>
        decide (c.1 = Fate.killed)).map fun c => c.2.value).sum := by
  refine ⟨rfl, rfl, rfl, ?_, rfl, rfl⟩
  rw [combatPhase]
  exact combat_foldl_length _ _

/-! ### C4: the end-state checks and their precedence -/

/-- C4 counterexample state: one live enemy exiting while the waves
are finished and the last life is lost. -/
def c4State : GameState :=
  { money := 0, lives := 1, score := 0, game_state := GState.playing,
    path := pathTwo, wave_manager := wmDone, towers := [],
    enemies := [⟨pathTwo, 1, 10, 0, 1, 50, 5, 10⟩] }

/-- C4 counterexample: in `c4State` the tick drops `lives` to 0, yet
the resulting state is Victory, not GameOver — the Victory check runs
after the GameOver check and overwrites it, refuting the claim that
the state becomes GameOver exactly when `lives <= 0` at the per-tick
check. -/
theorem c4_counterexample :
    (runStep c4State).lives ≤ 0 ∧
    (runStep c4State).game_state = GState.victory := by
  decide

/-- C4 amended: ticks only run in Playing (a terminal state is never
left), and from Playing the next state is Victory exactly when the
wave schedule is finished and the post-cleanup enemy list is empty
(enemies killed by this tick's attacks still count), otherwise
GameOver exactly when `lives <= 0` after exit processing, otherwise
Playing; Victory has priority over GameOver when both conditions
hold. -/
theorem c4_state_transitions (g : GameState) :
    (g.game_state ≠ GState.playing → runStep g = g) ∧
    (g.game_state = GState.playing →
      (runStep g).game_state =
        (if (combatPhase (movePhase (spawnPhase g))).wave_manager.is_finished
              = true ∧
            (combatPhase (movePhase (spawnPhase g))).enemies = [] then
          GState.victory
         else if (combatPhase (movePhase (spawnPhase g))).lives ≤ 0 then
          GState.gameOver
         else GState.playing)) := by
  refine ⟨fun h => by rw [runStep, if_neg h], fun h => ?_⟩
  rw [runStep, if_pos h, tick, statePhase]
  have hgs : (combatPhase (movePhase (spawnPhase g))).game_state =
      g.game_state := rfl
  by_cases hv : (combatPhase (movePhase (spawnPhase g))).wave_manager.is_finished
        = true ∧
      (combatPhase (movePhase (spawnPhase g))).enemies = []
  · rw [if_pos hv]
    simp only [if_pos hv]
  · rw [if_neg hv]
    simp only [if_neg hv]
    by_cases hl : (combatPhase (movePhase (spawnPhase g))).lives ≤ 0
    · rw [if_pos hl]
      simp only [if_pos hl]
    · rw [if_neg hl]
      simp only [if_neg hl]
      rw [hgs, h]

/-- Witness for C4's amended theorem: the initial game's first tick
stays in Playing. -/
theorem c4_state_transitions_witness :
    (runStep initialGame).game_state = GState.playing := by
  have h := (c4_state_transitions initialGame).2 rfl
  rw [h]
  decide

/-! ### C10: end-of-path reporting is one call late -/

/-- C10: `Enemy.update` reports reaching the end exactly when the call
starts with the index already at the last waypoint, and the call that
snaps the enemy onto the final waypoint itself returns `False` while
moving the index to the last waypoint, so the next call is the one
that reports the end. -/
theorem c10_update_end_reporting (e : Enemy) :
    ((e.update).1 = true ↔ e.path.length ≤ e.path_index + 1) ∧
    (e.path_index + 2 = e.path.length →
     ((e.path.getD (e.path_index + 1) (0, 0)).1 - e.x) ^ 2 +
       ((e.path.getD (e.path_index + 1) (0, 0)).2 - e.y) ^ 2 <
       e.speed ^ 2 →
     (e.update).1 = false ∧
     (e.update).2.path_index + 1 = e.path.length ∧
     ((e.update).2.update).1 = true) := by
  constructor
  · rw [Enemy.update]
    by_cases h : e.path.length ≤ e.path_index + 1
    · simp [h]
    · rw [if_neg h]
      split <;> simp [h]
  · intro h1 h2
    have hlt : ¬ e.path.length ≤ e.path_index + 1 := by omega
    have hu : e.update =
        (false, { e with
                    x := (e.path.getD (e.path_index + 1) (0, 0)).1
                    y := (e.path.getD (e.path_index + 1) (0, 0)).2
                    path_index := e.path_index + 1 }) := by
      rw [Enemy.update, if_neg hlt, if_pos h2]
    refine ⟨by rw [hu], by rw [hu]; dsimp only; omega, ?_⟩
    rw [hu]
    rw [Enemy.update]
    rw [if_pos (by dsimp only; omega)]

/-! ### Placement helpers -/

theorem is_position_valid_iff (g : GameState) (p : ℤ × ℤ) :
    is_position_valid g p = true ↔
      (0 ≤ p.1 ∧ p.1 < SCREEN_WIDTH ∧ 0 ≤ p.2 ∧ p.2 < SCREEN_HEIGHT ∧
       (∀ q ∈ g.path,
         (30 : ℚ) ^ 2 ≤ dist2 (p.1 : ℚ) (p.2 : ℚ) q.1 q.2) ∧
       (∀ t ∈ g.towers,
         (40 : ℚ) ^ 2 ≤ dist2 (p.1 : ℚ) (p.2 : ℚ) t.x t.y)) := by
  rw [is_position_valid]
  by_cases h1 : p.1 < 0 ∨ SCREEN_WIDTH ≤ p.1 ∨ p.2 < 0 ∨ SCREEN_HEIGHT ≤ p.2
  · rw [if_pos h1]
    simp only [Bool.false_eq_true, false_iff]
    intro hc
    rcases h1 with h | h | h | h <;> omega
  · rw [if_neg h1]
    push_neg at h1
    by_cases h2 : g.path.any fun q =>
        decide (dist2 (p.1 : ℚ) (p.2 : ℚ) q.1 q.2 < 30 ^ 2)
    · rw [if_pos h2]
      simp only [Bool.false_eq_true, false_iff]
      intro hc
      rw [List.any_eq_true] at h2
      obtain ⟨q, hq, hqd⟩ := h2
      rw [decide_eq_true_eq] at hqd
      exact absurd (hc.2.2.2.2.1 q hq) (not_le.mpr hqd)
    · rw [if_neg h2]
      by_cases h3 : g.towers.any fun t =>
          decide (dist2 (p.1 : ℚ) (p.2 : ℚ) t.x t.y < 40 ^ 2)
      · rw [if_pos h3]
        simp only [Bool.false_eq_true, false_iff]
        intro hc
        rw [List.any_eq_true] at h3
        obtain ⟨t, ht, htd⟩ := h3
        rw [decide_eq_true_eq] at htd
        exact absurd (hc.2.2.2.2.2 t ht) (not_le.mpr htd)
      · rw [if_neg h3]
        simp only [true_iff]
        rw [List.any_eq_true] at h2 h3
        push_neg at h2 h3
        refine ⟨h1.1, h1.2.1, h1.2.2.1, h1.2.2.2, ?_, ?_⟩
        · intro q hq
          have hd := h2 q hq
          simp only [ne_eq, decide_eq_true_eq] at hd
          exact not_lt.mp hd
        · intro t ht
          have hd := h3 t ht
          simp only [ne_eq, decide_eq_true_eq] at hd
          exact not_lt.mp hd

/-! ### C8: placement validation, debit and rejection -/

/-- C8: a placement succeeds exactly when the snapped grid position is
on screen, at (squared) distance at least 30 squared from every path
waypoint and 40 squared from every placed tower, and the cost is
affordable; on success the balance drops by exactly the prototype's
cost and exactly one tower is appended; on rejection the state is
unchanged. -/
theorem c8_place_tower_correct (g : GameState) (proto : Tower)
    (pos : ℤ × ℤ) :
    ((place_tower g proto pos).1 = true ↔
      (0 ≤ (get_grid_position pos).1 ∧
       (get_grid_position pos).1 < SCREEN_WIDTH ∧
       0 ≤ (get_grid_position pos).2 ∧
       (get_grid_position pos).2 < SCREEN_HEIGHT ∧
       (∀ q ∈ g.path,
         (30 : ℚ) ^ 2 ≤ dist2 ((get_grid_position pos).1 : ℚ)
           ((get_grid_position pos).2 : ℚ) q.1 q.2) ∧
       (∀ t ∈ g.towers,
         (40 : ℚ) ^ 2 ≤ dist2 ((get_grid_position pos).1 : ℚ)
           ((get_grid_position pos).2 : ℚ) t.x t.y) ∧
       proto.cost ≤ g.money)) ∧
    ((place_tower g proto pos).1 = true →
      (place_tower g proto pos).2.money = g.money - proto.cost ∧
      (place_tower g proto pos).2.towers.length =
        g.towers.length + 1) ∧
    ((place_tower g proto pos).1 = false →
      (place_tower g proto pos).2 = g) := by
  rw [place_tower]
  rcases hb : is_position_valid g (get_grid_position pos) with _ | _
  · rw [if_pos rfl]
    refine ⟨?_, ?_, fun _ => rfl⟩
    · simp only [Bool.false_eq_true, false_iff]
      intro hc
      have hvt : is_position_valid g (get_grid_position pos) = true :=
        (is_position_valid_iff g (get_grid_position pos)).mpr
          ⟨hc.1, hc.2.1, hc.2.2.1, hc.2.2.2.1, hc.2.2.2.2.1,
           hc.2.2.2.2.2.1⟩
      rw [hb] at hvt
      exact Bool.false_ne_true hvt
    · intro h
      exact absurd h (by simp)
  · rw [if_neg (by simp)]
    by_cases hm : g.money < proto.cost
    · rw [if_pos hm]
      refine ⟨?_, ?_, fun _ => rfl⟩
      · simp only [Bool.false_eq_true, false_iff]
        intro hc
        omega
      · intro h
        exact absurd h (by simp)
    · rw [if_neg hm]
      refine ⟨?_, fun _ => ⟨rfl, by simp⟩, ?_⟩
      · simp only [true_iff]
        have hv := (is_position_valid_iff g (get_grid_position pos)).mp hb
        exact ⟨hv.1, hv.2.1, hv.2.2.1, hv.2.2.2.1, hv.2.2.2.2.1,
          hv.2.2.2.2.2, not_lt.mp hm⟩
      · intro h
        exact absurd h (by simp)

/-- Witness for C8: placing on the path waypoint `(0, 300)` of the
initial game is rejected and leaves the state unchanged. -/
theorem c8_place_tower_correct_witness :
    (place_tower initialGame (BasicTower 0 0) (0, 300)).2 =
      initialGame := by
  have hgp : get_grid_position (0, 300) = (20, 300) := by decide
  have hval : is_position_valid initialGame (20, 300) = false := by
    rw [is_position_valid]
    rw [if_neg (by norm_num [SCREEN_WIDTH, SCREEN_HEIGHT])]
    rw [if_pos ?hany]
    case hany =>
      rw [List.any_eq_true]
      refine ⟨(0, 300), by simp [initialGame, gamePath], ?_⟩
      rw [decide_eq_true_eq]
      norm_num [dist2]
  have hfail : (place_tower initialGame (BasicTower 0 0) (0, 300)).1 =
      false := by
    rw [place_tower, hgp, hval, if_pos rfl]
  exact
    (c8_place_tower_correct initialGame (BasicTower 0 0) (0, 300)).2.2
      hfail

/-! ### C5: commands are not gated on the game state -/

theorem is_position_valid_set_state (g : GameState) (s : GState)
    (p : ℤ × ℤ) :
    is_position_valid { g with game_state := s } p =
      is_position_valid g p := rfl

/-- A game-over state with money, an empty board, and valid waves
left; used to show commands still execute after the game has ended. -/
def gameOverState : GameState :=
  { money := 100, lives := 0, score := 0, game_state := GState.gameOver,
    path := gamePath, wave_manager := wmIdle, towers := [],
    enemies := [] }

/-- C5 counterexample: in the terminal state `gameOverState` the
placement command is not rejected — it succeeds, debits the cost and
adds the tower, refuting the claim that gameplay commands are rejected
with a GameEnded error and leave the state unchanged after the game
ends. -/
theorem c5_counterexample :
    (place_tower gameOverState (BasicTower 0 0) (100, 500)).1 = true ∧
    (place_tower gameOverState (BasicTower 0 0) (100, 500)).2.money =
      gameOverState.money - 50 ∧
    (place_tower gameOverState
      (BasicTower 0 0) (100, 500)).2.towers.length = 1 := by
  have hgp : get_grid_position (100, 500) = (100, 500) := by decide
  have hval : is_position_valid gameOverState (100, 500) = true := by
    refine (is_position_valid_iff gameOverState (100, 500)).mpr ?_
    refine ⟨by decide, by decide, by decide, by decide, ?_, ?_⟩
    · intro q hq
      simp only [gameOverState, gamePath, List.mem_cons,
        List.not_mem_nil, or_false] at hq
      rcases hq with h | h | h | h | h | h | h | h <;>
        rw [h] <;> norm_num [dist2]
    · intro t ht
      simp only [gameOverState, List.not_mem_nil] at ht
  have hmoney : ¬ gameOverState.money < (BasicTower 0 0).cost := by
    decide
  rw [place_tower, hgp, hval]
  rw [if_neg (by simp), if_neg hmoney]
  refine ⟨rfl, rfl, rfl⟩

/-- C5 amended: there is no GameEnded rejection — each gameplay
command (place, upgrade, sell, start wave) reads and writes only
fields other than the game state, so it behaves in GameOver or Victory
exactly as in Playing; what stops in a terminal state is only the
per-tick simulation update of the main loop. -/
theorem c5_commands_ignore_game_state (g : GameState) (s : GState)
    (proto : Tower) (pos : ℤ × ℤ) (i j : ℕ) :
    (place_tower { g with game_state := s } proto pos =
      ((place_tower g proto pos).1,
       { (place_tower g proto pos).2 with game_state := s })) ∧
    (upgrade_selected_tower { g with game_state := s } i =
      ((upgrade_selected_tower g i).1,
       { (upgrade_selected_tower g i).2 with game_state := s })) ∧
    (sell_selected_tower { g with game_state := s } j =
      ((sell_selected_tower g j).1,
       { (sell_selected_tower g j).2 with game_state := s })) ∧
    (start_wave { g with game_state := s } =
      ((start_wave g).1,
       { (start_wave g).2 with game_state := s })) ∧
    (s ≠ GState.playing →
      runStep { g with game_state := s } = { g with game_state := s }) := by
  refine ⟨?_, ?_, ?_, ?_, ?_⟩
  · rw [place_tower, place_tower, is_position_valid_set_state]
    by_cases hv : is_position_valid g (get_grid_position pos) = false
    · rw [if_pos hv, if_pos hv]
    · rw [if_neg hv, if_neg hv]
      by_cases hm : g.money < proto.cost
      · rw [if_pos hm, if_pos hm]
      · rw [if_neg hm, if_neg hm]
  · rw [upgrade_selected_tower, upgrade_selected_tower]
    by_cases h : i < g.towers.length
    · rw [dif_pos h, dif_pos h]
      by_cases hm : Int.fdiv (g.towers.get ⟨i, h⟩).cost 2 ≤ g.money
      · rw [if_pos hm, if_pos hm]
      · rw [if_neg hm, if_neg hm]
    · rw [dif_neg h, dif_neg h]
  · rw [sell_selected_tower, sell_selected_tower]
    by_cases h : j < g.towers.length
    · rw [dif_pos h, dif_pos h]
    · rw [dif_neg h, dif_neg h]
  · rw [start_wave, start_wave]
    by_cases h : g.wave_manager.active
    · rw [if_pos h, if_pos h]
    · rw [if_neg h, if_neg h]
  · intro hs
    rw [runStep, if_neg (by simpa using hs)]

/-- Witness for C5's amended theorem: in the game-over variant of the
initial state the tick of the main loop does nothing. -/
theorem c5_commands_ignore_game_state_witness :
    runStep { initialGame with game_state := GState.gameOver } =
      { initialGame with game_state := GState.gameOver } :=
  (c5_commands_ignore_game_state initialGame GState.gameOver
    (BasicTower 0 0) (0, 0) 0 0).2.2.2.2 (by decide)

/-! ### C3: the bomber's area of effect is centred on the tower -/

theorem map_ite_eq_self {α : Type} (l : List α) (p : α → Prop)
    [DecidablePred p] (f : α → α) (h : ∀ a ∈ l, ¬ p a) :
    (l.map fun a => if p a then f a else a) = l := by
  induction l with
  | nil => rfl
  | cons a tl ih =>
      rw [List.map_cons, if_neg (h a (by simp)),
        ih fun b hb => h b (by simp [hb])]

/-- An enemy standing 60 units from the origin (inside the bomber's
radius 80); it is the nearest enemy, hence the would-be primary
target. -/
def primaryEnemy : Enemy := ⟨pathThree, 0, 60, 0, 1, 100, 100, 5⟩

/-- An enemy standing 100 units from the origin: outside the bomber's
radius 80, but only 40 units from `primaryEnemy` — inside the
spec's explosion radius (50) around the primary target. -/
def blastEnemy : Enemy := ⟨pathThree, 0, 100, 0, 1, 100, 100, 5⟩

/-- C3 counterexample: a `BomberTower` at the origin attacking
`[primaryEnemy, blastEnemy]` damages only the enemy inside its own
radius and returns 15: `blastEnemy`, within 50 units of the primary
target but outside the tower's radius, is untouched — refuting the
claim that the blast is centred on the primary target and reaches
enemies outside the unit's own attack range. -/
theorem c3_counterexample :
    (BomberTower.attack (BomberTower 0 0)
      [primaryEnemy, blastEnemy]).1 = 15 ∧
    (BomberTower.attack (BomberTower 0 0)
      [primaryEnemy, blastEnemy]).2.2 =
      [⟨pathThree, 0, 60, 0, 1, 100, 85, 5⟩,
       ⟨pathThree, 0, 100, 0, 1, 100, 100, 5⟩] := by
  norm_num [BomberTower.attack, Tower.can_attack, BomberTower, dist2,
    primaryEnemy, blastEnemy]

/-- C3 amended: when a `BomberTower` is off cooldown, it subtracts its
damage from exactly the enemies whose distance to the **tower** is at
most the tower's own radius (there is no primary target and no
separate explosion radius), and returns its damage times the number of
enemies hit (0 when none is in range). -/
theorem c3_bomber_hits_tower_radius (t : Tower) (es : List Enemy)
    (h : t.can_attack = true) :
    (BomberTower.attack t es).1 =
      t.damage * (((es.filter fun e =>
        decide (dist2 t.x t.y e.x e.y ≤ ((t.radius : ℚ)) ^ 2)).length : ℕ) : ℤ) ∧
    (BomberTower.attack t es).2.2 =
      es.map fun e =>
        if dist2 t.x t.y e.x e.y ≤ ((t.radius : ℚ)) ^ 2 then
          { e with health := e.health - t.damage }
        else e := by
  rw [BomberTower.attack, if_neg (by simp [h])]
  dsimp only
  by_cases hn : 0 < (es.filter fun e =>
      decide (dist2 t.x t.y e.x e.y ≤ ((t.radius : ℚ)) ^ 2)).length
  · rw [if_pos hn]
    refine ⟨rfl, ?_⟩
    dsimp only
    apply List.map_congr_left
    intro e _
    by_cases he : dist2 t.x t.y e.x e.y ≤ ((t.radius : ℚ)) ^ 2
    · rw [if_pos (by simpa using he), if_pos he]
    · rw [if_neg (by simpa using he), if_neg he]
  · rw [if_neg hn]
    have hz : (es.filter fun e =>
        decide (dist2 t.x t.y e.x e.y ≤ ((t.radius : ℚ)) ^ 2)).length = 0 := by
      omega
    refine ⟨by rw [hz]; ring, ?_⟩
    rw [List.length_eq_zero] at hz
    rw [List.filter_eq_nil_iff] at hz
    rw [map_ite_eq_self]
    intro e he
    have := hz e he
    simpa using this

/-- Witness for C3's amended theorem at the concrete bomber attack of
the counterexample state. -/
theorem c3_bomber_hits_tower_radius_witness :
    (BomberTower.attack (BomberTower 0 0)
      [primaryEnemy, blastEnemy]).2.2 =
      [primaryEnemy, blastEnemy].map fun e =>
        if dist2 (BomberTower 0 0).x (BomberTower 0 0).y e.x e.y ≤
            (((BomberTower 0 0).radius : ℚ)) ^ 2 then
          { e with health := e.health - (BomberTower 0 0).damage }
        else e :=
  (c3_bomber_hits_tower_radius (BomberTower 0 0)
    [primaryEnemy, blastEnemy] (by decide)).2

/-! ### C1: an enemy that is dead and at the end is an exit, not a
kill -/

/-- C1 counterexample: for the concrete state `c1State`, whose single
enemy is dead (health 0) and at the end of the path, the tick
decrements `lives` and credits no bounty to `money` or `score` — the
exit check wins, refuting the claim that such an enemy is resolved as
a kill (bounty credited, lives kept). -/
theorem c1_counterexample :
    (runStep c1State).money = c1State.money ∧
    (runStep c1State).lives = c1State.lives - 1 ∧
    (runStep c1State).score = c1State.score := by
  decide

/-- C1 amended: an enemy that both has health `<= 0` and is at the end
of the path is resolved as an exit — the enemy loop classifies it
`reachedEnd` (the `reached_end` branch is tested before the
`is_alive` branch), and a tick over a state holding exactly that enemy
decrements `lives` by one and leaves `money` and `score` unchanged. -/
theorem c1_dead_at_end_is_exit (e : Enemy)
    (hEnd : e.path.length ≤ e.path_index + 1) (hDead : e.health ≤ 0) :
    (classifyEnemy e).1 = Fate.reachedEnd ∧
    ∀ g : GameState, g.enemies = [e] →
      (movePhase g).lives = g.lives - 1 ∧
      (movePhase g).money = g.money ∧
      (movePhase g).score = g.score := by
  have hup : e.update = (true, e) := by
    rw [Enemy.update, if_pos hEnd]
  have hcl : classifyEnemy e = (Fate.reachedEnd, e) := by
    rw [classifyEnemy, hup]
    rfl
  refine ⟨by rw [hcl], fun g hg => ?_⟩
  rw [movePhase, hg]
  simp [hcl]

/-- Witness for C1's amended theorem at the concrete dead enemy of
`c1State`. -/
theorem c1_dead_at_end_is_exit_witness :
    (classifyEnemy deadAtEnd).1 = Fate.reachedEnd :=
  (c1_dead_at_end_is_exit deadAtEnd (by decide) (by decide)).1

/-- Witness for C10: an enemy one step short of the final waypoint. -/
theorem c10_update_end_reporting_witness :
    ((⟨[(0, 0), (10, 0)], 0, 9, 0, 2, 50, 50, 10⟩ : Enemy).update).1 =
        false ∧
      ((⟨[(0, 0), (10, 0)], 0, 9, 0, 2, 50, 50, 10⟩ :
          Enemy).update).2.path_index + 1 =
        (⟨[(0, 0), (10, 0)], 0, 9, 0, 2, 50, 50, 10⟩ :
          Enemy).path.length ∧
      (((⟨[(0, 0), (10, 0)], 0, 9, 0, 2, 50, 50, 10⟩ :
          Enemy).update).2.update).1 = true :=
  (c10_update_end_reporting
      ⟨[(0, 0), (10, 0)], 0, 9, 0, 2, 50, 50, 10⟩).2
    (by decide) (by norm_num)

/-! ### C6: when `is_finished` becomes true -/

/-- The state part of one `WaveManager.update` call. -/
def wmStep (path : List (ℚ × ℚ)) (wm : WaveManager) : WaveManager :=
  (wm.update path).2

theorem wmStep_waiting (path : List (ℚ × ℚ)) (wm : WaveManager)
    (ha : wm.active = true) (hd : wm.spawn_delay = 60)
    (ht : wm.spawn_timer + 1 < 60) :
    wmStep path wm = { wm with spawn_timer := wm.spawn_timer + 1 } := by
  rw [wmStep, WaveManager.update]
  rw [if_neg (by simp [ha])]
  rw [if_neg (by omega)]

theorem wmStep_deactivate (path : List (ℚ × ℚ)) (wm : WaveManager)
    (ha : wm.active = true)
    (hready : wm.spawn_delay ≤ wm.spawn_timer + 1)
    (hidx : (wm.waves.getD wm.current_wave []).length ≤ wm.enemy_index) :
    wmStep path wm =
      { wm with
          spawn_timer := 0
          active := false
          current_wave := wm.current_wave + 1 } := by
  rw [wmStep, WaveManager.update]
  rw [if_neg (by simp [ha])]
  rw [if_pos hready]
  rw [if_neg (by omega)]

theorem wmStep_waiting_iterate (path : List (ℚ × ℚ))
    (wm : WaveManager) (ha : wm.active = true)
    (hd : wm.spawn_delay = 60) (h0 : wm.spawn_timer = 0) :
    ∀ k, k ≤ 59 →
      (wmStep path)^[k] wm = { wm with spawn_timer := k } := by
  intro k
  induction k with
  | zero =>
      intro _
      rw [Function.iterate_zero_apply, ← h0]
  | succ k ih =>
      intro hk
      rw [Function.iterate_succ_apply', ih (by omega)]
      exact wmStep_waiting path _ ha hd (show k + 1 < 60 by omega)

/-- A started single-wave schedule holding one enemy. -/
def wmActive : WaveManager :=
  ⟨0, [List.replicate 1 "basic"], 0, 0, true, 60⟩

set_option maxRecDepth 4000 in
/-- C6 counterexample: the last (only) enemy of the last wave is
dequeued by the 60th `update` call, yet one tick later (after the 61st
call) `is_finished` is still false — the deactivation only happens
when the spawn timer reaches the delay again, refuting "becomes true
exactly one tick after the last enemy is dequeued". -/
theorem c6_counterexample :
    (((wmStep gamePath)^[59] wmActive).update gamePath).1.isSome =
        true ∧
      ((wmStep gamePath)^[61] wmActive).is_finished = false := by
  decide

/-- C6 amended: `is_finished` is false while a wave is active or any
wave remains unstarted; and from the state right after the last enemy
of the last wave was dequeued (spawn timer freshly reset), it stays
false for the next 59 ticks and becomes true at the 60th — the call in
which the spawn timer reaches the spawn delay again, which deactivates
the wave and makes the wave index equal the wave count. -/
theorem c6_is_finished_timing (path : List (ℚ × ℚ))
    (wm : WaveManager) :
    (wm.active = true → wm.is_finished = false) ∧
    (wm.current_wave < wm.waves.length → wm.is_finished = false) ∧
    (wm.active = true → wm.spawn_timer = 0 → wm.spawn_delay = 60 →
     (wm.waves.getD wm.current_wave []).length ≤ wm.enemy_index →
     wm.current_wave + 1 = wm.waves.length →
     (∀ k, k < 60 → ((wmStep path)^[k] wm).is_finished = false) ∧
     ((wmStep path)^[60] wm).is_finished = true ∧
     ((wmStep path)^[60] wm).active = false ∧
     ((wmStep path)^[60] wm).current_wave =
       ((wmStep path)^[60] wm).waves.length) := by
  refine ⟨?_, ?_, ?_⟩
  · intro ha
    rw [WaveManager.is_finished, ha]
    simp
  · intro hlt
    rw [WaveManager.is_finished]
    rw [decide_eq_false (by omega)]
    simp
  · intro ha h0 hd hidx hlast
    have h60 : (wmStep path)^[60] wm =
        { wm with
            spawn_timer := 0
            active := false
            current_wave := wm.current_wave + 1 } := by
      rw [show (60 : ℕ) = 59 + 1 from rfl, Function.iterate_succ_apply']
      rw [wmStep_waiting_iterate path wm ha hd h0 59 (by omega)]
      exact wmStep_deactivate path _ ha
        (show wm.spawn_delay ≤ 59 + 1 by omega)
        (show (wm.waves.getD wm.current_wave []).length ≤
          wm.enemy_index from hidx)
    refine ⟨?_, ?_, ?_, ?_⟩
    · intro k hk
      rw [wmStep_waiting_iterate path wm ha hd h0 k (by omega)]
      rw [WaveManager.is_finished]
      simp [ha]
    · rw [h60, WaveManager.is_finished]
      simp only [Bool.not_false, Bool.and_true]
      rw [decide_eq_true (show wm.waves.length ≤ wm.current_wave + 1
        by omega)]
    · rw [h60]
    · rw [h60]
      exact hlast

/-- Witness for C6's amended theorem at the started one-wave schedule
with its single enemy already dequeued. -/
theorem c6_is_finished_timing_witness :
    ((wmStep gamePath)^[60]
      ⟨0, [List.replicate 1 "basic"], 0, 1, true, 60⟩).is_finished =
      true :=
  ((c6_is_finished_timing gamePath
      ⟨0, [List.replicate 1 "basic"], 0, 1, true, 60⟩).2.2
    (by decide) (by decide) (by decide) (by decide) (by decide)).2.1

/-! ### C9: the money balance never goes negative -/

/-- Every enemy on the board has a nonnegative bounty. -/
def ValuesOK (g : GameState) : Prop := ∀ e ∈ g.enemies, 0 ≤ e.value

/-- Every placed tower has a nonnegative stored cost. -/
def CostsOK (g : GameState) : Prop := ∀ t ∈ g.towers, 0 ≤ t.cost

/-- The economy invariant together with the side facts its
preservation needs. -/
def Inv (g : GameState) : Prop := 0 ≤ g.money ∧ CostsOK g ∧ ValuesOK g

theorem create_enemy_value_nonneg (ty : String)
    (path : List (ℚ × ℚ)) (e : Enemy)
    (h : EnemyFactory.create_enemy ty path = some e) : 0 ≤ e.value := by
  rw [EnemyFactory.create_enemy] at h
  split_ifs at h
  all_goals
    first
      | exact Option.noConfusion h
      | (injection h with h2
         rw [← h2]
         norm_num)

theorem wm_spawn_value_nonneg (wm : WaveManager)
    (path : List (ℚ × ℚ)) (e : Enemy)
    (h : (wm.update path).1 = some e) : 0 ≤ e.value := by
  rw [WaveManager.update] at h
  split_ifs at h
  all_goals dsimp only at h
  all_goals
    first
      | exact Option.noConfusion h
      | exact create_enemy_value_nonneg _ path e h

theorem Tower.attack_values (t : Tower) (es : List Enemy)
    (h : ∀ e ∈ es, 0 ≤ e.value) :
    ∀ e ∈ (Tower.attack t es).2.2, 0 ≤ e.value := by
  rw [Tower.attack]
  split
  · exact h
  · rcases hft : t.find_target es with _ | i
    · exact h
    · intro e he
      rcases List.mem_or_eq_of_mem_set he with h2 | h2
      · exact h e h2
      · rw [h2]
        show 0 ≤ (es.getD i default).value
        by_cases hi : i < es.length
        · rw [List.getD_eq_getElem es default hi]
          exact h _ (List.getElem_mem hi)
        · rw [List.getD_eq_default es default (by omega)]
          show (0 : ℤ) ≤ 0
          decide

theorem BomberTower.attack_preserves_values (t : Tower) (es : List Enemy)
    (h : ∀ e ∈ es, 0 ≤ e.value) :
    ∀ e ∈ (BomberTower.attack t es).2.2, 0 ≤ e.value := by
  rw [BomberTower.attack]
  split
  · exact h
  · dsimp only
    split
    · intro e he
      rcases List.mem_map.mp he with ⟨e0, he0, heq⟩
      rw [← heq]
      split
      · exact h e0 he0
      · exact h e0 he0
    · exact h

theorem Tower.attackDispatch_values (t : Tower) (es : List Enemy)
    (h : ∀ e ∈ es, 0 ≤ e.value) :
    ∀ e ∈ (Tower.attackDispatch t es).2.2, 0 ≤ e.value := by
  rw [Tower.attackDispatch]
  rcases t.kind with _ | _ | _
  · exact Tower.attack_values t es h
  · exact Tower.attack_values t es h
  · exact BomberTower.attack_preserves_values t es h

theorem combat_foldl_values (ts : List Tower)
    (acc : List Tower × List Enemy)
    (hes : ∀ e ∈ acc.2, 0 ≤ e.value) :
    ∀ e ∈ ((ts.foldl
      (fun acc t =>
        ((acc.1 ++ [(Tower.attackDispatch t acc.2).2.1],
          (Tower.attackDispatch t acc.2).2.2)))
      acc).2), 0 ≤ e.value := by
  induction ts generalizing acc with
  | nil => exact hes
  | cons t tl ih =>
      rw [List.foldl_cons]
      exact ih _ (Tower.attackDispatch_values t acc.2 hes)

theorem Tower.attack_cost (t : Tower) (es : List Enemy) :
    (Tower.attack t es).2.1.cost = t.cost := by
  rw [Tower.attack]
  split
  · rfl
  · rcases hft : t.find_target es with _ | i
    · rfl
    · rfl

theorem BomberTower.attack_preserves_cost (t : Tower) (es : List Enemy) :
    (BomberTower.attack t es).2.1.cost = t.cost := by
  rw [BomberTower.attack]
  split
  · rfl
  · dsimp only
    split
    · rfl
    · rfl

theorem Tower.attackDispatch_cost (t : Tower) (es : List Enemy) :
    (Tower.attackDispatch t es).2.1.cost = t.cost := by
  rw [Tower.attackDispatch]
  rcases t.kind with _ | _ | _
  · exact Tower.attack_cost t es
  · exact Tower.attack_cost t es
  · exact BomberTower.attack_preserves_cost t es

theorem combat_foldl_costs (ts : List Tower)
    (acc : List Tower × List Enemy)
    (hts : ∀ t ∈ ts, 0 ≤ t.cost) (hacc : ∀ t ∈ acc.1, 0 ≤ t.cost) :
    ∀ t ∈ ((ts.foldl
      (fun acc t =>
        ((acc.1 ++ [(Tower.attackDispatch t acc.2).2.1],
          (Tower.attackDispatch t acc.2).2.2)))
      acc).1), 0 ≤ t.cost := by
  induction ts generalizing acc with
  | nil => exact hacc
  | cons t tl ih =>
      rw [List.foldl_cons]
      refine ih _ (fun u hu => hts u (by simp [hu])) ?_
      intro u hu
      rcases List.mem_append.mp hu with h2 | h2
      · exact hacc u h2
      · rw [List.mem_singleton.mp h2, Tower.attackDispatch_cost]
        exact hts t (by simp)

theorem spawnPhase_inv (g : GameState) (h : Inv g) :
    Inv (spawnPhase g) := by
  obtain ⟨hm, hc, hv⟩ := h
  refine ⟨hm, hc, ?_⟩
  intro e he
  rw [spawnPhase] at he
  rcases List.mem_append.mp he with h2 | h2
  · exact hv e h2
  · rcases hsp : (g.wave_manager.update g.path).1 with _ | e0
    · rw [hsp] at h2
      exact absurd h2 (by simp)
    · rw [hsp] at h2
      rw [show e = e0 from by simpa using h2]
      exact wm_spawn_value_nonneg g.wave_manager g.path e0 hsp

theorem movePhase_inv (g : GameState) (h : Inv g) :
    Inv (movePhase g) := by
  obtain ⟨hm, hc, hv⟩ := h
  have hsum : 0 ≤ (((g.enemies.map classifyEnemy).filter fun c =>
      decide (c.1 = Fate.killed)).map fun c => c.2.value).sum := by
    apply List.sum_nonneg
    intro x hx
    rcases List.mem_map.mp hx with ⟨c, hcmem, hxeq⟩
    have hcs := (List.mem_filter.mp hcmem).1
    rcases List.mem_map.mp hcs with ⟨e, hemem, hceq⟩
    rw [← hxeq, ← hceq, classifyEnemy_value]
    exact hv e hemem
  refine ⟨by rw [movePhase]; exact add_nonneg hm hsum, hc, ?_⟩
  intro e he
  rw [movePhase] at he
  rcases List.mem_map.mp he with ⟨c, hcmem, heq⟩
  have hcs := (List.mem_filter.mp hcmem).1
  rcases List.mem_map.mp hcs with ⟨e0, he0, hceq⟩
  rw [← heq, ← hceq, classifyEnemy_value]
  exact hv e0 he0

theorem combatPhase_inv (g : GameState) (h : Inv g) :
    Inv (combatPhase g) := by
  obtain ⟨hm, hc, hv⟩ := h
  refine ⟨hm, ?_, ?_⟩
  · intro t ht
    rw [combatPhase] at ht
    exact combat_foldl_costs g.towers ([], g.enemies) hc
      (by intro u hu; exact absurd hu (by simp)) t ht
  · intro e he
    rw [combatPhase] at he
    exact combat_foldl_values g.towers ([], g.enemies) hv e he

theorem statePhase_inv (g : GameState) (h : Inv g) :
    Inv (statePhase g) := h

theorem runStep_inv (g : GameState) (h : Inv g) : Inv (runStep g) := by
  rw [runStep]
  split
  · exact statePhase_inv _ (combatPhase_inv _ (movePhase_inv _
      (spawnPhase_inv _ h)))
  · exact h

theorem place_tower_inv (g : GameState) (proto : Tower) (pos : ℤ × ℤ)
    (h : Inv g) (hp : 0 ≤ proto.cost) :
    Inv (place_tower g proto pos).2 := by
  obtain ⟨hm, hc, hv⟩ := h
  rw [place_tower]
  split
  · exact ⟨hm, hc, hv⟩
  · split
    · exact ⟨hm, hc, hv⟩
    · refine ⟨by dsimp only; omega, ?_, hv⟩
      intro t ht
      dsimp only at ht
      rcases List.mem_append.mp ht with h2 | h2
      · exact hc t h2
      · rw [List.mem_singleton.mp h2]
        exact hp

theorem upgrade_inv (g : GameState) (i : ℕ) (h : Inv g) :
    Inv (upgrade_selected_tower g i).2 := by
  obtain ⟨hm, hc, hv⟩ := h
  rw [upgrade_selected_tower]
  split
  · rename_i hrange
    split
    · rename_i hcost
      refine ⟨by dsimp only; omega, ?_, hv⟩
      intro t ht
      dsimp only at ht
      rcases List.mem_or_eq_of_mem_set ht with h2 | h2
      · exact hc t h2
      · rw [h2]
        show 0 ≤ (g.towers.get ⟨i, hrange⟩).cost
        exact hc _ (List.get_mem g.towers i hrange)
    · exact ⟨hm, hc, hv⟩
  · exact ⟨hm, hc, hv⟩

theorem sell_inv (g : GameState) (i : ℕ) (h : Inv g) :
    Inv (sell_selected_tower g i).2 := by
  obtain ⟨hm, hc, hv⟩ := h
  rw [sell_selected_tower]
  split
  · rename_i hrange
    refine ⟨?_, ?_, hv⟩
    · dsimp only
      have hcost : 0 ≤ (g.towers.get ⟨i, hrange⟩).cost :=
        hc _ (List.get_mem g.towers i hrange)
      have hdiv : 0 ≤ Int.tdiv ((g.towers.get ⟨i, hrange⟩).cost * 7) 10 :=
        Int.tdiv_nonneg (by omega) (by omega)
      omega
    · intro t ht
      dsimp only at ht
      exact hc t (List.mem_of_mem_eraseIdx ht)
  · exact ⟨hm, hc, hv⟩

theorem start_wave_inv (g : GameState) (h : Inv g) :
    Inv (start_wave g).2 := by
  rw [start_wave]
  split
  · exact h
  · exact h

theorem initialGame_inv : Inv initialGame := by
  refine ⟨by decide, ?_, ?_⟩
  · intro t ht
    exact absurd ht (by simp [initialGame])
  · intro e he
    exact absurd he (by simp [initialGame])

theorem inv_of_reachable (g : GameState) (h : Reachable g) : Inv g := by
  induction h with
  | init => exact initialGame_inv
  | step _ ih => exact runStep_inv _ ih
  | place _ hp ih =>
      refine place_tower_inv _ _ _ ih ?_
      simp only [List.mem_cons, List.not_mem_nil, or_false] at hp
      rcases hp with h2 | h2 | h2
      · rw [h2]
        decide
      · rw [h2]
        decide
      · rw [h2]
        decide
  | upgrade _ ih => exact upgrade_inv _ _ ih
  | sell _ ih => exact sell_inv _ _ ih
  | wave _ ih => exact start_wave_inv _ ih

/-- C9: the money balance is nonnegative in every state reachable from
the initial game by ticks and gameplay commands — every debit is
guarded by an affordability check and every credit (sale refund, kill
bounty) is nonnegative. -/
theorem c9_money_nonneg (g : GameState) (h : Reachable g) :
    0 ≤ g.money :=
  (inv_of_reachable g h).1

/-- Witness for C9 at the initial game state. -/
theorem c9_money_nonneg_witness : 0 ≤ initialGame.money :=
  c9_money_nonneg initialGame Reachable.init

end TowerDefense



